import Mathlib

/-!
Shallow embedding of `async_ip_rotator` (files `IpRotator.py` and
`ClientSession.py`) together with proofs settling the frozen claims about
its specification.

Conventions of the embedding:
* Python strings are `String`, lists are `List`.
* AWS / `aioboto3` calls are modelled by explicit response values handed to
  the embedded functions: a fallible provider call is an `Except String`
  value (the `String` is the propagated error), and enumerated provider
  error conditions (ConflictException, TooManyRequestsException) get their
  own constructors.
* `asyncio.gather(*tasks)` with the default `return_exceptions=False` is
  modelled by `gatherExcept`: it surfaces a single failing task's error
  (modelled as the first in task order) and otherwise the list of results
  in task order; the tasks themselves all run (they are not cancelled), so
  trace-level facts quantify over every task.
* Unbounded loops (`while True` in `_delete_api`, the paging loop of
  `_clear_existing_apis`) are driven by explicit fuel or by the finite
  script of provider responses; returning `none` means the loop was still
  running when the fuel or script ran out.
-/

namespace AsyncIpRotator

/-! ## Endpoint record (`_API` in `IpRotator.py`)

The Python class stores `id`, `region` and `target`; `id` is `None` until
`create_api` assigns it, but every record placed into the pool or handed to
`_delete_api` has a string id, which is what we model. -/

structure API where
  id : String
  region : String
  target : String
deriving DecidableEq, Repr

/-- `_API.host`: `f'{self.id}.execute-api.{self.region}.amazonaws.com'`. -/
def API.host (a : API) : String :=
  a.id ++ ".execute-api." ++ a.region ++ ".amazonaws.com"

/-! ## Region presets (`IpRotator.DEFAULT_REGIONS` etc.) -/

def DEFAULT_REGIONS : List String :=
  ["us-east-1", "us-east-2", "us-west-1", "us-west-2", "eu-west-1", "eu-west-2", "eu-west-3",
   "eu-central-1", "ca-central-1"]

def EXTRA_REGIONS : List String :=
  DEFAULT_REGIONS ++
  ["ap-south-1", "ap-northeast-3", "ap-northeast-2", "ap-southeast-1", "ap-southeast-2",
   "ap-northeast-1", "sa-east-1"]

def ALL_REGIONS : List String :=
  EXTRA_REGIONS ++ ["ap-east-1", "af-south-1", "eu-south-1", "me-south-1", "eu-north-1"]

/-- `IpRotator.__init__` line `self.regions = regions if regions else self.DEFAULT_REGIONS`.
The Python argument is `None` or a list; Python truthiness makes both `None`
and `[]` fall back to `DEFAULT_REGIONS`. -/
def initRegions : Option (List String) → List String
  | none => DEFAULT_REGIONS
  | some rs => if rs.isEmpty then DEFAULT_REGIONS else rs

/-! ## `urllib.parse.urlparse`, restricted to the scheme/netloc split used by
`IpRotator.__init__`.

CPython splits a scheme off the front iff the string contains a colon whose
prefix is non-empty, starts with an ASCII letter and consists of letters,
digits, `+`, `-`, `.` only (the scheme is lowercased); a netloc is present
iff the remainder then starts with `//`, and extends to the next `/`, `?`
or `#`. -/

def isSchemeChar (c : Char) : Bool :=
  c.isAlphanum || c == '+' || c == '-' || c == '.'

/-- Split a character list at the first colon, returning the parts before
and after it, or `none` when there is no colon. -/
def splitAtColon : List Char → Option (List Char × List Char)
  | [] => none
  | c :: cs =>
    if c == ':' then some ([], cs)
    else match splitAtColon cs with
      | some (pre, post) => some (c :: pre, post)
      | none => none

/-- Scheme extraction of `urlparse`: returns `(scheme, rest)`, with scheme
`[]` when the URL has no valid scheme prefix. -/
def parseScheme (url : List Char) : List Char × List Char :=
  match splitAtColon url with
  | some (pre, post) =>
    match pre with
    | [] => ([], url)
    | c :: _ =>
      if c.isAlpha && pre.all isSchemeChar then (pre.map Char.toLower, post)
      else ([], url)
  | none => ([], url)

/-- Netloc extraction of `urlparse`: a netloc exists only after a leading
`//` and runs until the next `/`, `?` or `#`. -/
def parseNetloc : List Char → List Char
  | '/' :: '/' :: rest => rest.takeWhile (fun c => !(c == '/' || c == '?' || c == '#'))
  | _ => []

/-- The `(scheme, netloc)` components of `urlparse(url)`. -/
def urlparseSchemeNetloc (url : String) : String × String :=
  let (scheme, rest) := parseScheme url.toList
  (String.mk scheme, String.mk (parseNetloc rest))

/-- `IpRotator.__init__` target normalization:
`self.target = f'{target.scheme if target.scheme else "https"}://{target.netloc}'`
(an empty scheme string is falsy in Python). -/
def initTarget (target : String) : String :=
  let p := urlparseSchemeNetloc target
  (if p.1.isEmpty then "https" else p.1) ++ "://" ++ p.2

/-! ## `IpRotator._delete_api`

The body is a `while True` loop: call `delete_api`; on success return; on a
`ClientError` whose code is `TooManyRequestsException` sleep 5 seconds and
retry; re-raise any other error. The provider is modelled as a finite
script of responses, one per `delete_api` call, consumed in order. -/

inductive DeleteResp where
  | ok
  | tooManyRequests
  | err (e : String)
deriving DecidableEq, Repr

/-- The delete loop. Result: `some (sleeps, outcome)` where `sleeps` lists
the durations of the `asyncio.sleep` calls performed, or `none` when the
loop is still running after exhausting the scripted responses. -/
def deleteApiLoop : List DeleteResp → Option (List Nat × Except String Unit)
  | [] => none
  | .ok :: _ => some ([], .ok ())
  | .tooManyRequests :: rest =>
    (deleteApiLoop rest).map (fun r => (5 :: r.1, r.2))
  | .err e :: _ => some ([], .error e)

/-! ## The round-robin cursor (`itertools.cycle(self.apis)` consumed by
`ClientSession._request` via `next(self.rotator.apis_iter)`)

`itertools.cycle` yields the head and rotates it to the back. `cycDraw s n`
performs `n` calls to `next`, returning the drawn elements in order and the
final cursor state. -/

def cycDraw : Nat → List α → List α × List α
  | 0, s => ([], s)
  | _ + 1, [] => ([], [])
  | n + 1, x :: xs =>
    let r := cycDraw n (xs ++ [x])
    (x :: r.1, r.2)

/-! ## `IpRotator._create_api`

Per region: `create_api` (returns the id or fails), then `create_stage`
inside `try/except ConflictException: pass`, then `create_deployment`, then
return the record. One `CreateClient` value scripts the three provider
responses for one region. -/

inductive StageResp where
  | ok
  | conflict
  | err (e : String)
deriving DecidableEq, Repr

structure CreateClient where
  createApiResp : Except String String
  createStageResp : StageResp
  createDeploymentResp : Except String Unit
deriving Repr

/-- The embedding of `_create_api(region)`. -/
def createApi (target region : String) (c : CreateClient) : Except String API := do
  let apiId ← c.createApiResp
  match c.createStageResp with
  | .ok => pure ()
  | .conflict => pure ()
  | .err e => throw e
  let _ ← c.createDeploymentResp
  pure { id := apiId, region := region, target := target }

/-! ## `asyncio.gather` (default `return_exceptions=False`) -/

/-- Fan-in of gathered task results: all successes in task order, or a
single failing task's error (modelled as the first in task order). -/
def gatherExcept : List (Except ε α) → Except ε (List α)
  | [] => .ok []
  | .error e :: _ => .error e
  | .ok a :: rest => (gatherExcept rest).map (a :: ·)

/-- The first error among the task results, if any. -/
def firstErr : List (Except ε α) → Option ε
  | [] => none
  | .error e :: _ => some e
  | .ok _ :: rest => firstErr rest

/-- Whether an `Except` value is a success. -/
def isOk : Except ε α → Bool
  | .ok _ => true
  | .error _ => false

/-! ## `IpRotator.__aenter__`

Creates one `_create_api` task per region, gathers them into `self.apis`
and builds `self.apis_iter = itertools.cycle(self.apis)`. On a gather
failure the assignment to `self.apis` never runs. -/

/-- The pool computed by `__aenter__` (the value of
`asyncio.gather(*tasks)`), given per-region scripted clients. -/
def aenterPool (regions : List String) (clients : String → CreateClient)
    (target : String) : Except String (List API) :=
  gatherExcept (regions.map fun r => createApi target r (clients r))

/-- The value of `self.apis` after `__aenter__`: installed on success, left
unchanged when the gather raises. -/
def aenterApisAfter (oldApis : List API) (regions : List String)
    (clients : String → CreateClient) (target : String) : List API :=
  match aenterPool regions clients target with
  | .ok p => p
  | .error _ => oldApis

/-! ### Provider-call traces of `__aenter__`

Each event is one AWS control-plane call. `gather` does not cancel sibling
tasks, so every task's calls appear; the point of the trace is which kinds
of calls `__aenter__` can ever issue. -/

inductive Ev where
  | createApiCall (region : String)
  | createStageCall (region : String)
  | createDeploymentCall (region : String)
  | deleteApiCall (region : String) (id : String)
deriving DecidableEq, Repr

def Ev.isDelete : Ev → Bool
  | .deleteApiCall _ _ => true
  | _ => false

/-- The provider calls issued by one `_create_api(region)` task. -/
def createApiTrace (region : String) (c : CreateClient) : List Ev :=
  Ev.createApiCall region ::
  match c.createApiResp with
  | .error _ => []
  | .ok _ =>
    Ev.createStageCall region ::
    match c.createStageResp with
    | .err _ => []
    | _ => [Ev.createDeploymentCall region]

/-- All provider calls issued during `__aenter__`. -/
def aenterTrace (regions : List String) (clients : String → CreateClient) : List Ev :=
  (regions.map fun r => createApiTrace r (clients r)).flatten

/-! ## `IpRotator.__aexit__`

Creates one `_delete_api` task per record of `self.apis`, awaits
`asyncio.gather(*tasks)`, then sets `self.apis_iter = None`. If the gather
raises, the exception propagates and the `apis_iter` assignment is
skipped; `self.apis` is never cleared on any path. Each `del` value is the
net outcome of one `_delete_api` task (its internal rate-limit retries
resolved). -/

structure ExitOutcome where
  res : Except String Unit
  apisAfter : List API
  apisIterAfter : Option (List API)
  deleteAttempts : List API
deriving Repr

/-- The embedding of `__aexit__`. `apisIter` is the cursor state before the
call (`some pool` when a cursor is installed). -/
def aexit (apis : List API) (apisIter : Option (List API))
    (del : API → Except String Unit) : ExitOutcome :=
  let g := gatherExcept (apis.map del)
  { res := g.map fun _ => ()
    apisAfter := apis
    apisIterAfter := match g with | .ok _ => none | .error _ => apisIter
    deleteAttempts := apis }

/-! ## `IpRotator._clear_existing_apis` (the orphan sweep)

The source initialises `next_token = None`, fetches a first page with
`get_apis(MaxResults='100')`, then loops `while 'NextToken' in res`
fetching `get_apis(MaxResults='100', NextToken=next_token)` — and never
assigns `next_token` from the response. The provider is a deterministic
function from the supplied token (`none` models both "parameter absent"
and `NextToken=None`) to a page. Finally it filters the collected items to
`Name == 'Async IP Rotator'` and deletes each via `_delete_api`. -/

structure GwItem where
  apiId : String
  name : String
deriving DecidableEq, Repr

structure Page where
  items : List GwItem
  nextToken : Option String
deriving DecidableEq, Repr

/-- The paging loop of `_clear_existing_apis`, as written: `nextTok` is the
Python variable `next_token`, which the loop body reads but never updates.
`none` means the `while` loop was still running when the fuel ran out. -/
def codeCollectApis (client : Option String → Page) :
    Nat → Option String → Page → List GwItem → Option (List GwItem)
  | 0, _, _, _ => none
  | fuel + 1, nextTok, res, acc =>
    match res.nextToken with
    | some _ =>
      let res2 := client nextTok
      codeCollectApis client fuel nextTok res2 (acc ++ res2.items)
    | none => some acc

/-- The embedding of `_clear_existing_apis(region)`: the list of `_API`
records it goes on to delete, or `none` when the paging loop does not
terminate within `fuel` iterations. -/
def clearExistingApis (client : Option String → Page) (fuel : Nat)
    (region target : String) : Option (List API) :=
  let res := client none
  (codeCollectApis client fuel none res res.items).map fun items =>
    (items.filter (fun a => a.name == "Async IP Rotator")).map
      fun a => { id := a.apiId, region := region, target := target }

/-- Modelled from the spec: the intended sweep pagination ("repeat list
calls, following a continuation token, until no token is returned"), which
the source's loop was meant to implement. -/
def specCollectApis (client : Option String → Page) :
    Nat → Option String → List GwItem → Option (List GwItem)
  | 0, _, _ => none
  | fuel + 1, tok, acc =>
    let res := client tok
    match res.nextToken with
    | some t => specCollectApis client fuel (some t) (acc ++ res.items)
    | none => some (acc ++ res.items)

/-- A provider with exactly two pages: the first page carries continuation
token `t1`, the second page carries none. Re-requesting with no token (or
`NextToken=None`) returns the first page again. -/
def twoPageClient : Option String → Page
  | none => { items := [{ apiId := "id1", name := "Async IP Rotator" }], nextToken := some "t1" }
  | some _ => { items := [{ apiId := "id2", name := "Async IP Rotator" }], nextToken := none }

/-- A provider with a single page mixing this tool's gateways with an
unrelated one. -/
def onePageClient : Option String → Page
  | _ => { items := [{ apiId := "a1", name := "Async IP Rotator" },
                     { apiId := "b1", name := "unrelated" },
                     { apiId := "a2", name := "Async IP Rotator" }],
           nextToken := none }

/-! ## Helper lemmas -/

theorem deleteApiLoop_replicate_append (n : Nat) (rest : List DeleteResp) :
    deleteApiLoop (List.replicate n .tooManyRequests ++ rest) =
      (deleteApiLoop rest).map (fun r => (List.replicate n 5 ++ r.1, r.2)) := by
  induction n with
  | zero => cases h : deleteApiLoop rest <;> simp [h]
  | succ n ih =>
    cases h : deleteApiLoop rest <;>
      simp [List.replicate_succ, deleteApiLoop, ih, h]

theorem cycDraw_nil (n : Nat) : cycDraw n ([] : List α) = ([], []) := by
  cases n <;> rfl

theorem cycDraw_append_self (s t : List α) :
    cycDraw s.length (s ++ t) = (s, t ++ s) := by
  induction s generalizing t with
  | nil => simp [cycDraw]
  | cons x xs ih =>
    simp only [List.cons_append, List.length_cons, cycDraw, List.append_eq]
    rw [List.append_assoc, ih (t ++ [x])]
    simp

theorem cycDraw_self (s : List α) : cycDraw s.length s = (s, s) := by
  have h := cycDraw_append_self s ([] : List α)
  simpa using h

theorem cycDraw_add (m n : Nat) (s : List α) :
    cycDraw (m + n) s =
      ((cycDraw m s).1 ++ (cycDraw n (cycDraw m s).2).1,
        (cycDraw n (cycDraw m s).2).2) := by
  induction m generalizing s with
  | zero => simp [cycDraw]
  | succ m ih =>
    rw [Nat.succ_add]
    cases s with
    | nil => simp [cycDraw, cycDraw_nil]
    | cons x xs => simp [cycDraw, ih (xs ++ [x])]

theorem cycDraw_mul (k : Nat) (s : List α) :
    cycDraw (k * s.length) s = ((List.replicate k s).flatten, s) := by
  induction k with
  | zero => simp [cycDraw]
  | succ k ih =>
    have hmul : (k + 1) * s.length = s.length + k * s.length := by ring
    rw [hmul, cycDraw_add, cycDraw_self, ih]
    simp [List.replicate_succ]

theorem count_flatten_replicate {α : Type} [DecidableEq α] (k : Nat) (l : List α) (a : α) :
    ((List.replicate k l).flatten).count a = k * l.count a := by
  induction k with
  | zero => simp
  | succ k ih => simp [List.replicate_succ, ih, Nat.succ_mul, Nat.add_comm]

theorem createApi_ok_iff (t r : String) (c : CreateClient) (a : API) :
    createApi t r c = .ok a ↔
      (c.createApiResp = .ok a.id ∧ a.region = r ∧ a.target = t ∧
        (c.createStageResp = .ok ∨ c.createStageResp = .conflict) ∧
        c.createDeploymentResp = .ok ()) := by
  obtain ⟨ar, sr, dr⟩ := c
  cases ar <;> cases sr <;> cases dr <;>
      simp [createApi, Bind.bind, Except.bind, pure, Except.pure] <;>
      constructor <;> intro h
  all_goals (cases a; simp_all)

theorem listAllMap {α β : Type} (f : α → β) (l : List α) (p : β → Bool) :
    (l.map f).all p = l.all (fun x => p (f x)) := by
  induction l with
  | nil => rfl
  | cons x xs ih => simp [ih]

theorem isOk_gatherExcept (l : List (Except ε α)) :
    isOk (gatherExcept l) = l.all isOk := by
  induction l with
  | nil => rfl
  | cons x rest ih =>
    cases x with
    | error e => simp [gatherExcept, isOk]
    | ok a =>
      cases h : gatherExcept rest with
      | error e => simp [gatherExcept, h, isOk, Except.map, ← ih]
      | ok as => simp [gatherExcept, h, isOk, Except.map, ← ih]

theorem gatherExcept_of_firstErr_none (l : List (Except ε α)) (h : firstErr l = none) :
    ∃ as, gatherExcept l = .ok as := by
  induction l with
  | nil => exact ⟨[], rfl⟩
  | cons x rest ih =>
    cases x with
    | error e => simp [firstErr] at h
    | ok a =>
      obtain ⟨as, has⟩ := ih (by simpa [firstErr] using h)
      exact ⟨a :: as, by simp [gatherExcept, has, Except.map]⟩

theorem gatherExcept_of_firstErr_some (l : List (Except ε α)) (e : ε)
    (h : firstErr l = some e) : gatherExcept l = .error e := by
  induction l with
  | nil => simp [firstErr] at h
  | cons x rest ih =>
    cases x with
    | error e0 =>
      simp [firstErr] at h
      simp [gatherExcept, h]
    | ok a =>
      have := ih (by simpa [firstErr] using h)
      simp [gatherExcept, this, Except.map]

theorem aenterPool_ok_regions (regions : List String) (clients : String → CreateClient)
    (target : String) (pool : List API)
    (h : aenterPool regions clients target = .ok pool) :
    pool.map API.region = regions := by
  induction regions generalizing pool with
  | nil =>
    simp only [aenterPool, List.map_nil, gatherExcept] at h
    cases h
    rfl
  | cons r rs ih =>
    simp only [aenterPool, List.map_cons] at h
    cases hc : createApi target r (clients r) with
    | error e => rw [hc] at h; simp [gatherExcept] at h
    | ok a =>
      rw [hc] at h
      simp only [gatherExcept] at h
      cases hg : gatherExcept (List.map (fun r => createApi target r (clients r)) rs) with
      | error e => rw [hg] at h; simp [Except.map] at h
      | ok p =>
        rw [hg] at h
        simp only [Except.map] at h
        cases h
        have hreg : a.region = r := ((createApi_ok_iff _ _ _ _).mp hc).2.1
        have hrs : List.map API.region p = rs := ih p hg
        simp [hreg, hrs]

theorem createApiTrace_no_delete (r : String) (c : CreateClient) (ev : Ev)
    (hev : ev ∈ createApiTrace r c) : ev.isDelete = false := by
  obtain ⟨ar, sr, dr⟩ := c
  cases ar <;> cases sr <;>
    simp [createApiTrace] at hev <;>
    rcases hev with h | h | h <;> simp_all [Ev.isDelete]

theorem aenterTrace_no_delete (regions : List String) (clients : String → CreateClient) :
    (aenterTrace regions clients).all (fun ev => !ev.isDelete) = true := by
  simp only [aenterTrace, List.all_eq_true]
  intro ev hev
  simp only [List.mem_flatten, List.mem_map] at hev
  obtain ⟨l, ⟨r, _, hl⟩, hev⟩ := hev
  subst hl
  simp [createApiTrace_no_delete r (clients r) ev hev]

theorem codeCollectApis_twoPage_diverges (fuel : Nat) (acc : List GwItem) :
    codeCollectApis twoPageClient fuel none (twoPageClient none) acc = none := by
  induction fuel generalizing acc with
  | zero => rfl
  | succ fuel ih =>
    simp only [codeCollectApis, twoPageClient]
    exact ih _

/-! ## Concrete fixtures used by counterexamples and witnesses -/

/-- Clients for a two-region activation where region `r1` provisions
successfully and every other region fails at `create_api`. -/
def c1Clients : String → CreateClient := fun r =>
  if r == "r1" then
    { createApiResp := .ok "id1", createStageResp := .ok, createDeploymentResp := .ok () }
  else
    { createApiResp := .error "boom", createStageResp := .ok, createDeploymentResp := .ok () }

/-- Clients for which every region provisions successfully. -/
def okClients : String → CreateClient := fun _ =>
  { createApiResp := .ok "id1", createStageResp := .ok, createDeploymentResp := .ok () }

/-- A two-record pool. -/
def poolA : List API :=
  [{ id := "id1", region := "r1", target := "https://t" },
   { id := "id2", region := "r2", target := "https://t" }]

/-- A deletion outcome where both records of `poolA` fail with distinct
errors. -/
def delBoth : API → Except String Unit := fun a =>
  if a.id == "id1" then .error "e1" else .error "e2"

/-! ## Claims -/

/-- C1 (counterexample): activating over regions `r1`, `r2` where `r1`
provisions successfully and `r2` fails surfaces the failure, yet the trace
of provider calls issued by `__aenter__` contains no deletion call at all —
the successfully created `r1` endpoint is not torn down. -/
theorem activation_partial_failure_no_teardown_counterexample :
    aenterPool ["r1", "r2"] c1Clients "https://t" = .error "boom" ∧
    createApi "https://t" "r1" (c1Clients "r1") =
      .ok { id := "id1", region := "r1", target := "https://t" } ∧
    (aenterTrace ["r1", "r2"] c1Clients).all (fun ev => !ev.isDelete) = true :=
  ⟨rfl, rfl, rfl⟩

/-- C1 (amended): if any regional provisioning call fails during
`__aenter__`, the overall activation fails and `self.apis` is left
unchanged (no partial pool is installed), but no teardown of the endpoints
that were created successfully is attempted — `__aenter__` never issues a
deletion call. -/
theorem activation_failure_surfaces_without_partial_pool_or_teardown
    (regions : List String) (clients : String → CreateClient) (target : String)
    (oldApis : List API)
    (h : regions.any (fun r => !isOk (createApi target r (clients r))) = true) :
    isOk (aenterPool regions clients target) = false ∧
    aenterApisAfter oldApis regions clients target = oldApis ∧
    (aenterTrace regions clients).all (fun ev => !ev.isDelete) = true := by
  have hfail : isOk (aenterPool regions clients target) = false := by
    rw [aenterPool, isOk_gatherExcept, listAllMap,
      List.all_eq_not_any_not regions (fun r => isOk (createApi target r (clients r))), h]
    rfl
  refine ⟨hfail, ?_, aenterTrace_no_delete regions clients⟩
  rw [aenterApisAfter]
  cases hp : aenterPool regions clients target with
  | ok p => rw [hp] at hfail; simp [isOk] at hfail
  | error e => rfl

/-- C1 (witness for the amended theorem), at the two-region fixture. -/
theorem activation_failure_surfaces_without_partial_pool_or_teardown_witness :
    isOk (aenterPool ["r1", "r2"] c1Clients "https://t") = false ∧
    aenterApisAfter [] ["r1", "r2"] c1Clients "https://t" = [] ∧
    (aenterTrace ["r1", "r2"] c1Clients).all (fun ev => !ev.isDelete) = true :=
  activation_failure_surfaces_without_partial_pool_or_teardown
    ["r1", "r2"] c1Clients "https://t" [] (by decide)

/-- C2 (counterexample): deactivating the two-record pool where both
deletions fail surfaces only the first error `e1` (no aggregation with
`e2`), leaves `self.apis` equal to the full pool (never cleared), and
leaves `self.apis_iter` installed (the clearing assignment is skipped on
the failure path). -/
theorem deactivation_clears_and_aggregates_counterexample :
    (aexit poolA (some poolA) delBoth).res = .error "e1" ∧
    (aexit poolA (some poolA) delBoth).apisAfter = poolA ∧
    poolA ≠ [] ∧
    (aexit poolA (some poolA) delBoth).apisIterAfter = some poolA :=
  ⟨rfl, rfl, by decide, rfl⟩

/-- C2 (amended): `__aexit__` launches one deletion per record of the pool
(every record gets a deletion attempt), but surfaces the first deletion
error un-aggregated; `self.apis` is never cleared on any path, and
`self.apis_iter` is cleared only when every deletion succeeded. -/
theorem deactivation_first_error_pool_kept (apis : List API)
    (iter : Option (List API)) (del : API → Except String Unit) :
    (aexit apis iter del).deleteAttempts = apis ∧
    (aexit apis iter del).apisAfter = apis ∧
    (aexit apis iter del).res =
      (match firstErr (apis.map del) with
        | none => .ok ()
        | some e => .error e) ∧
    (aexit apis iter del).apisIterAfter =
      (match firstErr (apis.map del) with
        | none => none
        | some _ => iter) := by
  refine ⟨rfl, rfl, ?_, ?_⟩ <;>
  · cases hf : firstErr (apis.map del) with
    | none =>
      obtain ⟨as, has⟩ := gatherExcept_of_firstErr_none _ hf
      simp [aexit, has, Except.map]
    | some e =>
      have hg := gatherExcept_of_firstErr_some _ e hf
      simp [aexit, hg, Except.map]

/-- C3 (code bug): the paging loop of `_clear_existing_apis` never assigns
`next_token` from a response, so against a provider whose first page
carries a continuation token it keeps re-requesting with no token and
never terminates (for every fuel bound it is still looping), instead of
following the token to the second page as the spec-modelled pagination
does; on a token-less single page the sweep does delete exactly the
gateways named `Async IP Rotator`, leaving unrelated ones untouched. -/
theorem orphan_sweep_pagination_bug :
    (∀ fuel region target,
      clearExistingApis twoPageClient fuel region target = none) ∧
    specCollectApis twoPageClient 2 none [] =
      some [{ apiId := "id1", name := "Async IP Rotator" },
            { apiId := "id2", name := "Async IP Rotator" }] ∧
    (∀ fuel region target,
      clearExistingApis onePageClient (fuel + 1) region target =
        some [{ id := "a1", region := region, target := target },
              { id := "a2", region := region, target := target }]) := by
  refine ⟨?_, rfl, ?_⟩
  · intro fuel region target
    simp only [clearExistingApis, codeCollectApis_twoPage_diverges]
    rfl
  · intro fuel region target
    simp [clearExistingApis, codeCollectApis, onePageClient]

/-- C4 (code bug): `__init__` builds the stored target from
`urlparse(target)`, but a scheme-less input like `example.com` is parsed
with an empty netloc (the host text lands in the path component), so the
stored target is `https://` rather than `https://example.com`; inputs with
an explicit scheme are normalized to scheme plus host as claimed. -/
theorem target_normalization_bug :
    initTarget "example.com" = "https://" ∧
    initTarget "https://example.com" = "https://example.com" ∧
    initTarget "http://example.com" = "http://example.com" ∧
    initTarget "http://example.com/path?q=1" = "http://example.com" :=
  ⟨rfl, rfl, rfl, rfl⟩

/-- C5: `_delete_api` sleeps 5 seconds and retries on each
`TooManyRequestsException`: a provider answering with the rate-limit error
exactly `n` times and then succeeding yields exactly `n` sleeps of 5 and a
success; with the rate-limit error `n` times and then another error, the
loop performs the same `n` sleeps and propagates that error immediately;
and against nothing but rate-limit errors the loop never gives up. -/
theorem delete_api_retry_law (n : Nat) (e : String) :
    deleteApiLoop (List.replicate n .tooManyRequests ++ [.ok]) =
      some (List.replicate n 5, .ok ()) ∧
    deleteApiLoop (List.replicate n .tooManyRequests ++ [.err e]) =
      some (List.replicate n 5, .error e) ∧
    deleteApiLoop (List.replicate n .tooManyRequests) = none := by
  refine ⟨?_, ?_, ?_⟩
  · rw [deleteApiLoop_replicate_append]
    simp [deleteApiLoop]
  · rw [deleteApiLoop_replicate_append]
    simp [deleteApiLoop]
  · have h := deleteApiLoop_replicate_append n []
    simpa [deleteApiLoop] using h

/-- C6: drawing `k * |pool|` elements from the cyclic cursor built over a
non-empty pool returns the pool repeated `k` times in pool order (so each
pool element is returned exactly `k` times, scaled by multiplicity), and
the cursor wraps back to the start of the pool. -/
theorem round_robin_law {α : Type} [DecidableEq α] (pool : List α) (k : Nat)
    (_hpool : pool ≠ []) (_hk : 1 ≤ k) :
    cycDraw (k * pool.length) pool = ((List.replicate k pool).flatten, pool) ∧
    ∀ a : α, (cycDraw (k * pool.length) pool).1.count a = k * pool.count a := by
  refine ⟨cycDraw_mul k pool, fun a => ?_⟩
  rw [cycDraw_mul]
  exact count_flatten_replicate k pool a

/-- C6 (witness): two full turns over the pool `["a", "b"]`. -/
theorem round_robin_law_witness :
    cycDraw (2 * (["a", "b"] : List String).length) ["a", "b"] =
      ((List.replicate 2 (["a", "b"] : List String)).flatten, ["a", "b"]) :=
  (round_robin_law ["a", "b"] 2 (by decide) (by decide)).1

/-- C7: when `__aenter__` succeeds over a non-empty, duplicate-free region
list, the installed pool has one record per region, its records carry the
input regions in input order, the records' regions are pairwise distinct,
and every record's region comes from the input list. -/
theorem activation_pool_matches_regions (regions : List String)
    (clients : String → CreateClient) (target : String) (pool : List API)
    (_hne : regions ≠ []) (hnd : regions.Nodup)
    (h : aenterPool regions clients target = .ok pool) :
    pool.length = regions.length ∧
    pool.map API.region = regions ∧
    (pool.map API.region).Nodup ∧
    ∀ a ∈ pool, a.region ∈ regions := by
  have hmap := aenterPool_ok_regions regions clients target pool h
  refine ⟨?_, hmap, ?_, ?_⟩
  · have hlen := congrArg List.length hmap
    simpa using hlen
  · rw [hmap]
    exact hnd
  · intro a ha
    rw [← hmap]
    exact List.mem_map_of_mem _ ha

/-- C7 (witness): a fully successful two-region activation. -/
theorem activation_pool_matches_regions_witness :
    ([{ id := "id1", region := "us-east-1", target := "https://t" },
      { id := "id1", region := "us-east-2", target := "https://t" }] : List API).length =
        (["us-east-1", "us-east-2"] : List String).length ∧
    ([{ id := "id1", region := "us-east-1", target := "https://t" },
      { id := "id1", region := "us-east-2", target := "https://t" }] : List API).map API.region =
        ["us-east-1", "us-east-2"] := by
  have h := activation_pool_matches_regions ["us-east-1", "us-east-2"] okClients "https://t"
    [{ id := "id1", region := "us-east-1", target := "https://t" },
     { id := "id1", region := "us-east-2", target := "https://t" }]
    (by decide) (by decide) rfl
  exact ⟨h.1, h.2.1⟩

/-- C8: every record's derived host is
`identifier ++ ".execute-api." ++ region ++ ".amazonaws.com"`, and for
identifier `abc123` in region `us-east-1` it is exactly
`abc123.execute-api.us-east-1.amazonaws.com`. -/
theorem api_host_composition :
    (∀ a : API, a.host = a.id ++ ".execute-api." ++ a.region ++ ".amazonaws.com") ∧
    API.host { id := "abc123", region := "us-east-1", target := "https://t" } =
      "abc123.execute-api.us-east-1.amazonaws.com" :=
  ⟨fun _ => rfl, rfl⟩

/-- C9: in `_create_api`, a `ConflictException` from `create_stage` is
swallowed and the call proceeds to `create_deployment` (whose outcome then
decides the result); any other `create_stage` error and any
`create_deployment` or `create_api` error propagates; and the call
succeeds exactly when every step succeeded modulo a swallowed stage
conflict, so no other error is dropped. -/
theorem create_api_error_policy (t r apiId e e' : String) (s : StageResp)
    (d : Except String Unit) :
    createApi t r ⟨.ok apiId, .conflict, d⟩ =
      d.map (fun _ => { id := apiId, region := r, target := t }) ∧
    createApi t r ⟨.ok apiId, .err e, d⟩ = .error e ∧
    createApi t r ⟨.error e', s, d⟩ = .error e' ∧
    ∀ (c : CreateClient) (a : API), createApi t r c = .ok a ↔
      (c.createApiResp = .ok a.id ∧ a.region = r ∧ a.target = t ∧
        (c.createStageResp = .ok ∨ c.createStageResp = .conflict) ∧
        c.createDeploymentResp = .ok ()) := by
  refine ⟨?_, rfl, rfl, fun c a => createApi_ok_iff t r c a⟩
  cases d <;> rfl

/-- C10: both falsy constructor arguments for `regions` (`None` and the
empty list) fall back to the 9-element `DEFAULT_REGIONS`, so no argument
can install an empty region list. -/
theorem falsy_regions_default (arg : Option (List String)) :
    initRegions none = DEFAULT_REGIONS ∧
    initRegions (some []) = DEFAULT_REGIONS ∧
    DEFAULT_REGIONS.length = 9 ∧
    initRegions arg ≠ [] := by
  refine ⟨rfl, rfl, rfl, ?_⟩
  cases arg with
  | none => simp [initRegions, DEFAULT_REGIONS]
  | some rs =>
    cases rs with
    | nil => simp [initRegions, DEFAULT_REGIONS]
    | cons x xs => simp [initRegions]

end AsyncIpRotator
